import Mathlib

/-!
Shallow embedding of the retrieval-augmented-generation service
(app/ingest.py, app/retriever.py, app/rag_graph.py, main.py).

Modelling conventions:
- Python floats are modelled as real numbers; the external embedding
  provider is a function parameter, so theorems quantify over every
  possible embedding it could return.
- File reading is modelled by a function from a path to the list of lines
  of that file; raising an exception is modelled by Except.
- numpy argsort (default kind, introsort) is deterministic but NOT
  stable: it guarantees only an ascending permutation of the indices,
  with no particular order on equal scores. The model fixes a stable
  ascending sort as one concrete deterministic refinement of that
  contract. Facts claimed for general inputs (lengths, membership,
  determinism, descending output order) are independent of the tie
  order; descending output order is additionally proved for every
  correct ascending argsort through the IsAscendingArgsort predicate,
  and tie-order-sensitive concrete evaluations are confined to arrays
  of at most two elements, where numpy introsort runs its stable
  insertion-sort path and agrees with the model.
- the sklearn call cosine_similarity is external library code, not part of
  this repository; it is modelled from the spec (section 4.2) formula.
-/

/-- Model of Python str.strip on the character list of a string: drop
whitespace from the front, then from the back. -/
def pyStripChars (l : List Char) : List Char :=
  ((l.dropWhile Char.isWhitespace).reverse.dropWhile Char.isWhitespace).reverse

/-- Model of Python str.strip, as used by app/ingest.py line 19 and
main.py line 133. -/
def pyStrip (s : String) : String := String.mk (pyStripChars s.data)

/-- Model of Python str.endswith, as used by app/ingest.py line 25: the
last chars of s equal the suffix (false when s is shorter). -/
def pyEndsWith (s suffix : String) : Bool :=
  s.data.drop (s.data.length - suffix.data.length) == suffix.data

/-- Model of the Python slice xs[i:] for an arbitrary (possibly negative)
integer i: a negative i counts from the end, clamped at the start of the
list. Note xs[0:] is the whole list. -/
def pySliceFrom {α : Type} (xs : List α) (i : Int) : List α :=
  if i < 0 then xs.drop (xs.length - (-i).toNat)
  else xs.drop i.toNat

/-- app/ingest.py, load_txt (lines 16-20): strip every line of the file and
keep the non-blank ones. The file system is the function from a path to
the lines of the file at that path. -/
def load_txt (fileLines : List String) : List String :=
  (fileLines.filter fun line => pyStrip line != "").map pyStrip

/-- app/ingest.py, load_documents (lines 23-28): dispatch on the file
extension; only a path ending in .txt is accepted, anything else raises
ValueError with the message modelled here. -/
def load_documents (fs : String → List String) (path : String) :
    Except String (List String) :=
  if pyEndsWith path ".txt" then Except.ok (load_txt (fs path))
  else Except.error ("Unsupported file format: " ++ path)

/-- Dot product of two float vectors, pairwise products summed (extra
trailing entries of the longer vector are ignored). -/
def dot (q v : List ℝ) : ℝ := (List.zipWith (fun a b => a * b) q v).sum

/-- Squared euclidean norm of a float vector. -/
def normSq (v : List ℝ) : ℝ := dot v v

/-- Modelled from the spec: sklearn.metrics.pairwise.cosine_similarity,
called at app/retriever.py line 33, is external library code that is not
part of this repository. Spec section 4.2 defines the score of a pair as
dot(q, v) / (norm q * norm v), with the score defined as 0 whenever
either norm is 0 (sklearn obtains the same value by substituting 1 for a
zero norm before dividing). -/
noncomputable def cosineSim (q v : List ℝ) : ℝ :=
  if normSq q = 0 ∨ normSq v = 0 then 0
  else dot q v / (Real.sqrt (normSq q) * Real.sqrt (normSq v))

/-- Strict ordering in which a stable ascending argsort emits indices:
by score first, and by original position on equal scores. -/
def rankLt {α : Type} [LinearOrder α] [Zero α] (s : List α) (i j : ℕ) : Prop :=
  s.getD i 0 < s.getD j 0 ∨ (s.getD i 0 = s.getD j 0 ∧ i < j)

/-- One step of the stable ascending sort behind the argsort model: insert
index i into an already sorted index list, before the first index with a
strictly larger score (so before indices of equal score, which come later
in the original order). -/
def insertRank {α : Type} [LinearOrder α] [Zero α] (s : List α) (i : ℕ) :
    List ℕ → List ℕ
  | [] => [i]
  | j :: rest =>
      if s.getD i 0 ≤ s.getD j 0 then i :: j :: rest
      else j :: insertRank s i rest

/-- Stable insertion sort of an index list by the scores they point to. -/
def sortIdx {α : Type} [LinearOrder α] [Zero α] (s : List α) :
    List ℕ → List ℕ
  | [] => []
  | i :: rest => insertRank s i (sortIdx s rest)

/-- Model of numpy scores.argsort() at app/retriever.py line 35: the list
of all indices of scores, sorted ascending by score. numpy's default
introsort is deterministic but not stable, so its order on equal scores
is implementation-defined; this model fixes the stable order as one
concrete deterministic refinement (it agrees with numpy on arrays small
enough for its insertion-sort path, in particular on the at-most-two
element arrays evaluated concretely below). Properties that must hold
for the real program on arbitrary inputs are stated tie-order-free, via
IsAscendingArgsort. -/
def argsort {α : Type} [LinearOrder α] [Zero α] (s : List α) : List ℕ :=
  sortIdx s (List.range s.length)

/-- What numpy guarantees of scores.argsort() for every input, any kind:
the output is a permutation of the index range, ascending on scores,
with no commitment on the relative order of equal scores. -/
def IsAscendingArgsort {α : Type} [LinearOrder α] [Zero α] (s : List α)
    (idx : List ℕ) : Prop :=
  List.Perm idx (List.range s.length) ∧
  idx.Pairwise (fun i j => s.getD i 0 ≤ s.getD j 0)

/-- app/retriever.py line 35: top_idx = scores.argsort()[-k:][::-1], with
Python slice semantics for any integer k. -/
def rankIndices {α : Type} [LinearOrder α] [Zero α] (s : List α) (k : Int) :
    List ℕ :=
  (pySliceFrom (argsort s) (-k)).reverse

/-- app/retriever.py, retrieve (lines 30-40). The external embedding model
is the parameter embedQuery (get_embeddings_model().embed_query); the
query string is embedded, every corpus vector is scored against it by
cosine similarity, and the top_idx ranking selects documents and scores.
Out-of-range indexing of documents (impossible when the corpus index
invariant holds) is modelled by a default value. -/
noncomputable def retrieve (embedQuery : String → List ℝ) (query : String)
    (documents : List String) (doc_embeddings : List (List ℝ)) (k : Int) :
    List String × List ℝ :=
  let query_vector := embedQuery query
  let scores := doc_embeddings.map fun v => cosineSim query_vector v
  let top_idx := rankIndices scores k
  (top_idx.map fun i => documents.getD i "",
   top_idx.map fun i => scores.getD i 0)

/-- app/retriever.py, build_index (lines 24-27): load documents from the
path, then embed them with the external embedding model (the parameter
embed_texts); a load failure propagates. -/
def build_index (fs : String → List String)
    (embed_texts : List String → List (List ℝ)) (path : String) :
    Except String (List String × List (List ℝ)) :=
  match load_documents fs path with
  | Except.error e => Except.error e
  | Except.ok documents => Except.ok (documents, embed_texts documents)

/-- Model of Python round to an integer: round half to even (banker's
rounding), as Python round is specified to do. -/
def pyRoundHalfEven {α : Type} [LinearOrderedField α] [FloorRing α]
    (x : α) : ℤ :=
  if x - ⌊x⌋ < 1 / 2 then ⌊x⌋
  else if 1 / 2 < x - ⌊x⌋ then ⌊x⌋ + 1
  else if Even ⌊x⌋ then ⌊x⌋ else ⌊x⌋ + 1

/-- Model of Python round(x, 2): round x * 100 half to even, divide back
by 100. -/
def pyRound2 {α : Type} [LinearOrderedField α] [FloorRing α] (x : α) : α :=
  (pyRoundHalfEven (x * 100) : α) / 100

/-- app/rag_graph.py, compute_confidence (lines 7-15): 0.0 on an empty
score list, otherwise the arithmetic mean clamped to the unit interval
and rounded to 2 decimal places. Stated generically over an ordered
field with floor, so it can be read back at the rationals (exact float
inputs) as well as at the reals used by the pipeline. -/
def compute_confidence {α : Type} [LinearOrderedField α] [FloorRing α]
    (sim_scores : List α) : α :=
  if sim_scores = [] then 0
  else
    let avg_score := sim_scores.sum / (sim_scores.length : α)
    let confidence := max 0 (min 1 avg_score)
    pyRound2 confidence

/-- app/rag_graph.py, rag (lines 18-26): retrieve, join the retrieved
documents with newlines, call the external answer generator (the
parameter generate_answer, app/generator.py) on the question and that
context, and compute the confidence of the retrieval scores. The
generator call is unconditional in the source. -/
noncomputable def rag (embedQuery : String → List ℝ)
    (generate_answer : String → String → String) (question : String)
    (documents : List String) (doc_embeddings : List (List ℝ)) (k : Int) :
    String × List String × ℝ :=
  let r := retrieve embedQuery question documents doc_embeddings k
  let context := String.intercalate "\n" r.1
  let answer := generate_answer question context
  (answer, r.1, compute_confidence r.2)

/-- Response model of POST /ask (main.py, QuestionResponse, lines 77-83). -/
structure AskResponse where
  question : String
  k : Int
  answer : String
  contexts : List String
  confidence : ℝ

/-- Outcome of running the rag pipeline inside the try of main.py line
142: either a triple (answer, contexts, confidence), or an exception
raised by any stage (embedding, retrieval or generation) carrying the
text str(e). -/
inductive PipelineOutcome where
  | ok (answer : String) (contexts : List String) (confidence : ℝ)
  | exn (message : String)

/-- main.py, ask_question (lines 109-165). DOCUMENTS is the corpus loaded
at startup; the pipeline parameter is what the rag call would do if
reached. The boolean of the result records whether the pipeline (and
with it any external provider call) was entered; the two early-return
branches answer without it. Totality of this function is the model of
the handler never letting an exception escape. -/
def ask_question (DOCUMENTS : List String) (question : String) (k : Int)
    (pipeline : PipelineOutcome) : AskResponse × Bool :=
  if DOCUMENTS = [] then
    (⟨question, k,
      "Error: Documents not loaded. Check your .env file and ensure OPENAI_API_KEY is set.",
      [], 0⟩, false)
  else if question = "" ∨ pyStrip question = "" then
    (⟨question, k, "Please provide a valid question.", [], 0⟩, false)
  else
    match pipeline with
    | PipelineOutcome.ok a c conf => (⟨question, k, a, c, conf⟩, true)
    | PipelineOutcome.exn m =>
        (⟨question, k, "Error processing question: " ++ m, [], 0⟩, true)

theorem dot_nil_left (v : List ℝ) : dot [] v = 0 := rfl

theorem dot_nil_right (q : List ℝ) : dot q [] = 0 := by cases q <;> rfl

theorem dot_cons (a b : ℝ) (q v : List ℝ) :
    dot (a :: q) (b :: v) = a * b + dot q v := by
  simp [dot]

theorem normSq_cons (a : ℝ) (v : List ℝ) :
    normSq (a :: v) = a * a + normSq v := dot_cons a a v v

theorem normSq_nonneg (v : List ℝ) : 0 ≤ normSq v := by
  induction v with
  | nil => simp [normSq, dot]
  | cons a v ih =>
      rw [normSq_cons]
      exact add_nonneg (mul_self_nonneg a) ih

theorem dot_sq_le (q v : List ℝ) : dot q v ^ 2 ≤ normSq q * normSq v := by
  induction q generalizing v with
  | nil => simp [dot, normSq]
  | cons a q ih =>
      cases v with
      | nil =>
          rw [dot_nil_right]
          simpa using mul_nonneg (normSq_nonneg (a :: q)) (normSq_nonneg [])
      | cons b v =>
          have hD := ih v
          have hA := normSq_nonneg q
          have hB := normSq_nonneg v
          rw [dot_cons, normSq_cons, normSq_cons]
          rcases eq_or_lt_of_le hB with hB0 | hBpos
          · have hD0 : dot q v = 0 := by nlinarith [sq_nonneg (dot q v)]
            rw [hD0]
            nlinarith [mul_nonneg hA (mul_self_nonneg b),
              mul_nonneg (mul_self_nonneg a) (mul_self_nonneg b),
              mul_nonneg (mul_self_nonneg a) hB]

          · nlinarith [sq_nonneg (normSq v * a - b * dot q v),
              mul_nonneg (sub_nonneg.mpr hD)
                (add_nonneg (mul_self_nonneg b) hB)]

theorem pyRoundHalfEven_bounds {α : Type} [LinearOrderedField α] [FloorRing α]
    {x : α} (h0 : 0 ≤ x) (h1 : x ≤ 100) :
    0 ≤ pyRoundHalfEven x ∧ pyRoundHalfEven x ≤ 100 := by
  have hf0 : 0 ≤ ⌊x⌋ := by
    rw [Int.le_floor]
    exact_mod_cast h0
  have hf100 : ⌊x⌋ ≤ 100 := by
    have h := Int.floor_le_floor (α := α) (show x ≤ ((100 : ℤ) : α) by exact_mod_cast h1)
    simpa using h
  have hfle : (⌊x⌋ : α) ≤ x := Int.floor_le x
  unfold pyRoundHalfEven
  split_ifs with hc1 hc2 hc3
  · exact ⟨hf0, hf100⟩
  · have h99 : ⌊x⌋ ≤ 99 := by
      have hx : (⌊x⌋ : α) < 100 - 1 / 2 := by linarith
      have : (⌊x⌋ : α) < ((100 : ℤ) : α) := by push_cast; linarith
      have := Int.cast_lt.mp this
      omega
    exact ⟨by omega, by omega⟩
  · exact ⟨hf0, hf100⟩
  · have heq : x - ⌊x⌋ = 1 / 2 := le_antisymm (not_lt.mp hc2) (not_lt.mp hc1)
    have h99 : ⌊x⌋ ≤ 99 := by
      have : (⌊x⌋ : α) < ((100 : ℤ) : α) := by push_cast; linarith
      have := Int.cast_lt.mp this
      omega
    exact ⟨by omega, by omega⟩

theorem pyRound2_bounds {α : Type} [LinearOrderedField α] [FloorRing α]
    {x : α} (h0 : 0 ≤ x) (h1 : x ≤ 1) :
    0 ≤ pyRound2 x ∧ pyRound2 x ≤ 1 := by
  have hb := pyRoundHalfEven_bounds (x := x * 100)
    (by positivity) (by nlinarith)
  constructor
  · apply div_nonneg _ (by norm_num : (0 : α) ≤ 100)
    exact_mod_cast hb.1
  · rw [pyRound2, div_le_one (by norm_num : (0 : α) < 100)]
    exact_mod_cast hb.2

theorem compute_confidence_mem {α : Type} [LinearOrderedField α] [FloorRing α]
    (l : List α) : 0 ≤ compute_confidence l ∧ compute_confidence l ≤ 1 := by
  unfold compute_confidence
  split_ifs with h
  · norm_num
  · exact pyRound2_bounds (le_max_left 0 _)
      (max_le zero_le_one (min_le_left 1 _))

/-- C4: compute_confidence (app/rag_graph.py lines 7-15) is the arithmetic
mean clamped to the unit interval and rounded to 2 decimal places, with
empty input mapped to 0; the four contract examples hold and the result
always lies in the unit interval. -/
theorem C4_confidence :
    compute_confidence ([] : List ℚ) = 0 ∧
    compute_confidence [(1 : ℚ), 1] = 1 ∧
    compute_confidence [(-5 : ℚ)] = 0 ∧
    compute_confidence [(1 / 2 : ℚ), 7 / 10] = 6 / 10 ∧
    ∀ l : List ℚ, 0 ≤ compute_confidence l ∧ compute_confidence l ≤ 1 := by
  refine ⟨rfl, ?_, ?_, ?_, compute_confidence_mem⟩ <;>
    norm_num [compute_confidence, pyRound2, pyRoundHalfEven] <;>
    decide

/-- C5: similarity scoring (modelled from the spec for the external
sklearn cosine_similarity call at app/retriever.py line 33) returns 0
whenever either vector has zero norm, and is always bounded by 1 in
absolute value, so no division by zero and no infinite value occurs. -/
theorem C5_similarity_safe (q v : List ℝ) :
    ((normSq q = 0 ∨ normSq v = 0) → cosineSim q v = 0) ∧
    |cosineSim q v| ≤ 1 := by
  constructor
  · intro h
    unfold cosineSim
    exact if_pos h
  · by_cases h : normSq q = 0 ∨ normSq v = 0
    · unfold cosineSim
      rw [if_pos h]
      norm_num
    · push_neg at h
      have hq : 0 < normSq q := lt_of_le_of_ne (normSq_nonneg q) (Ne.symm h.1)
      have hv : 0 < normSq v := lt_of_le_of_ne (normSq_nonneg v) (Ne.symm h.2)
      have hd : 0 < Real.sqrt (normSq q) * Real.sqrt (normSq v) :=
        mul_pos (Real.sqrt_pos.mpr hq) (Real.sqrt_pos.mpr hv)
      unfold cosineSim
      rw [if_neg (by push_neg; exact h), abs_div, abs_of_pos hd]
      refine (div_le_one hd).mpr ?_
      have habs : |dot q v| ≤ Real.sqrt (normSq q * normSq v) := by
        refine (Real.le_sqrt (abs_nonneg _)
          (mul_nonneg (normSq_nonneg q) (normSq_nonneg v))).mpr ?_
        rw [sq_abs]
        exact dot_sq_le q v
      rw [Real.sqrt_mul (normSq_nonneg q)] at habs
      exact habs

/-- C5 witness: a zero query vector scores 0 against a non-zero corpus
vector, and the score of two unit vectors is bounded by 1. -/
theorem C5_similarity_safe_witness :
    cosineSim [0] [1, 2] = 0 ∧ |cosineSim [1] [1]| ≤ 1 :=
  ⟨(C5_similarity_safe [0] [1, 2]).1 (Or.inl (by norm_num [normSq, dot])),
   (C5_similarity_safe [1] [1]).2⟩

/-- C6: a question that is empty or whitespace-only makes the /ask handler
(main.py lines 124-140) answer with confidence 0 and no contexts, without
entering the pipeline, hence without any external call. -/
theorem C6_blank_question (docs : List String) (question : String) (k : Int)
    (p : PipelineOutcome) (h : pyStrip question = "") :
    (ask_question docs question k p).1.confidence = 0 ∧
    (ask_question docs question k p).1.contexts = [] ∧
    (ask_question docs question k p).2 = false := by
  unfold ask_question
  by_cases hd : docs = []
  · rw [if_pos hd]
    exact ⟨rfl, rfl, rfl⟩
  · rw [if_neg hd, if_pos (Or.inr h)]
    exact ⟨rfl, rfl, rfl⟩

/-- C6 witness: a whitespace-only question with a loaded corpus. -/
theorem C6_blank_question_witness :
    (ask_question ["d"] "   " 2 (PipelineOutcome.ok "a" ["c"] 1)).1.confidence = 0 ∧
    (ask_question ["d"] "   " 2 (PipelineOutcome.ok "a" ["c"] 1)).1.contexts = [] ∧
    (ask_question ["d"] "   " 2 (PipelineOutcome.ok "a" ["c"] 1)).2 = false :=
  C6_blank_question ["d"] "   " 2 (PipelineOutcome.ok "a" ["c"] 1) (by decide)

/-- C7: when the pipeline raises, the /ask handler (main.py lines 142-165)
still returns a response: the answer carries the error message, the
contexts are empty and the confidence is 0. Totality of ask_question is
the model of no unhandled exception escaping the handler. -/
theorem C7_pipeline_failure (docs : List String) (question : String) (k : Int)
    (m : String) (hd : docs ≠ []) (hq : pyStrip question ≠ "") :
    (ask_question docs question k (PipelineOutcome.exn m)).1.answer =
      "Error processing question: " ++ m ∧
    (ask_question docs question k (PipelineOutcome.exn m)).1.contexts = [] ∧
    (ask_question docs question k (PipelineOutcome.exn m)).1.confidence = 0 := by
  have hq2 : question ≠ "" := by
    intro he
    exact hq (by rw [he]; rfl)
  unfold ask_question
  rw [if_neg hd, if_neg (not_or.mpr ⟨hq2, hq⟩)]
  exact ⟨rfl, rfl, rfl⟩

/-- C7 witness: a concrete failing pipeline behind a valid request. -/
theorem C7_pipeline_failure_witness :
    (ask_question ["d"] "why" 2 (PipelineOutcome.exn "boom")).1.answer =
      "Error processing question: " ++ "boom" ∧
    (ask_question ["d"] "why" 2 (PipelineOutcome.exn "boom")).1.contexts = [] ∧
    (ask_question ["d"] "why" 2 (PipelineOutcome.exn "boom")).1.confidence = 0 :=
  C7_pipeline_failure ["d"] "why" 2 "boom" (by decide) (by decide)

/-- C8: retrieve (app/retriever.py lines 30-40) is deterministic: two
calls that agree on the query vector (the only value taken from the
embedding provider), the corpus and k give identical results. -/
theorem C8_deterministic (e1 e2 : String → List ℝ) (query : String)
    (documents : List String) (doc_embeddings : List (List ℝ)) (k : Int)
    (h : e1 query = e2 query) :
    retrieve e1 query documents doc_embeddings k =
      retrieve e2 query documents doc_embeddings k := by
  unfold retrieve
  rw [h]

/-- C8 witness: two identical calls at a concrete input. -/
theorem C8_deterministic_witness :
    retrieve (fun _ => [(1 : ℝ)]) "q" ["a"] [[1]] 2 =
      retrieve (fun _ => [(1 : ℝ)]) "q" ["a"] [[1]] 2 :=
  C8_deterministic (fun _ => [(1 : ℝ)]) (fun _ => [(1 : ℝ)]) "q" ["a"] [[1]] 2 rfl

/-- C9: load_documents (app/ingest.py lines 23-28) raises ValueError on
every path that does not end in .txt, and build_index
(app/retriever.py lines 24-27) propagates that error, so no PDF path can
be loaded through them even though load_pdf exists in the same module. -/
theorem C9_pdf_rejected (fs : String → List String) (path : String)
    (h : pyEndsWith path ".txt" = false) :
    load_documents fs path =
      Except.error ("Unsupported file format: " ++ path) ∧
    ∀ embed_texts : List String → List (List ℝ),
      build_index fs embed_texts path =
        Except.error ("Unsupported file format: " ++ path) := by
  have h1 : load_documents fs path =
      Except.error ("Unsupported file format: " ++ path) := by
    unfold load_documents
    rw [h]
    rfl
  refine ⟨h1, fun embed_texts => ?_⟩
  unfold build_index
  rw [h1]

/-- C9 witness: the PDF path doc.pdf used by the repository itself. -/
theorem C9_pdf_rejected_witness :
    load_documents (fun _ => []) "doc.pdf" =
      Except.error ("Unsupported file format: " ++ "doc.pdf") ∧
    build_index (fun _ => []) (fun _ => []) "doc.pdf" =
      Except.error ("Unsupported file format: " ++ "doc.pdf") :=
  ⟨(C9_pdf_rejected (fun _ => []) "doc.pdf" (by decide)).1,
   (C9_pdf_rejected (fun _ => []) "doc.pdf" (by decide)).2 (fun _ => [])⟩

theorem insertRank_perm {α : Type} [LinearOrder α] [Zero α] (s : List α)
    (i : ℕ) : ∀ l : List ℕ, List.Perm (insertRank s i l) (i :: l)
  | [] => List.Perm.refl _
  | j :: rest => by
      by_cases h : s.getD i 0 ≤ s.getD j 0
      · simp only [insertRank, if_pos h]
        exact List.Perm.refl _
      · simp only [insertRank, if_neg h]
        exact ((insertRank_perm s i rest).cons j).trans (List.Perm.swap i j rest)

theorem sortIdx_perm {α : Type} [LinearOrder α] [Zero α] (s : List α) :
    ∀ l : List ℕ, List.Perm (sortIdx s l) l
  | [] => List.Perm.refl _
  | i :: rest =>
      (insertRank_perm s i (sortIdx s rest)).trans ((sortIdx_perm s rest).cons i)

theorem argsort_perm {α : Type} [LinearOrder α] [Zero α] (s : List α) :
    List.Perm (argsort s) (List.range s.length) :=
  sortIdx_perm s (List.range s.length)

theorem argsort_length {α : Type} [LinearOrder α] [Zero α] (s : List α) :
    (argsort s).length = s.length :=
  (argsort_perm s).length_eq.trans (List.length_range s.length)

theorem mem_argsort {α : Type} [LinearOrder α] [Zero α] (s : List α) (x : ℕ) :
    x ∈ argsort s ↔ x < s.length := by
  rw [(argsort_perm s).mem_iff, List.mem_range]

theorem rankLt_trans {α : Type} [LinearOrder α] [Zero α] {s : List α}
    {i j m : ℕ} (h1 : rankLt s i j) (h2 : rankLt s j m) : rankLt s i m := by
  rcases h1 with h1 | ⟨e1, n1⟩
  · rcases h2 with h2 | ⟨e2, n2⟩
    · exact Or.inl (h1.trans h2)
    · exact Or.inl (by rw [← e2]; exact h1)
  · rcases h2 with h2 | ⟨e2, n2⟩
    · exact Or.inl (by rw [e1]; exact h2)
    · exact Or.inr ⟨e1.trans e2, n1.trans n2⟩

theorem mem_insertRank {α : Type} [LinearOrder α] [Zero α] (s : List α)
    (i x : ℕ) (l : List ℕ) : x ∈ insertRank s i l ↔ x = i ∨ x ∈ l := by
  rw [(insertRank_perm s i l).mem_iff, List.mem_cons]

theorem insertRank_pairwise {α : Type} [LinearOrder α] [Zero α] (s : List α)
    (i : ℕ) : ∀ l : List ℕ, (∀ x ∈ l, i < x) → l.Pairwise (rankLt s) →
      (insertRank s i l).Pairwise (rankLt s)
  | [], _, _ => by simp [insertRank, rankLt]
  | j :: rest, hfresh, hp => by
      rcases List.pairwise_cons.mp hp with ⟨hj, hrest⟩
      by_cases h : s.getD i 0 ≤ s.getD j 0
      · simp only [insertRank, if_pos h]
        have hij : rankLt s i j := by
          rcases lt_or_eq_of_le h with hlt | heq
          · exact Or.inl hlt
          · exact Or.inr ⟨heq, hfresh j (List.mem_cons_self j rest)⟩
        refine List.pairwise_cons.mpr ⟨?_, hp⟩
        intro x hx
        rcases List.mem_cons.mp hx with rfl | hx
        · exact hij
        · exact rankLt_trans hij (hj x hx)
      · simp only [insertRank, if_neg h]
        refine List.pairwise_cons.mpr ⟨?_, ?_⟩
        · intro x hx
          rcases (mem_insertRank s i x rest).mp hx with rfl | hx
          · exact Or.inl (lt_of_not_le h)
          · exact hj x hx
        · exact insertRank_pairwise s i rest
            (fun x hx => hfresh x (List.mem_cons_of_mem j hx)) hrest

theorem sortIdx_pairwise {α : Type} [LinearOrder α] [Zero α] (s : List α) :
    ∀ l : List ℕ, l.Pairwise (· < ·) → (sortIdx s l).Pairwise (rankLt s)
  | [], _ => List.Pairwise.nil
  | i :: rest, hp => by
      rcases List.pairwise_cons.mp hp with ⟨hi, hrest⟩
      exact insertRank_pairwise s i (sortIdx s rest)
        (fun x hx => hi x ((sortIdx_perm s rest).mem_iff.mp hx))
        (sortIdx_pairwise s rest hrest)

theorem argsort_pairwise {α : Type} [LinearOrder α] [Zero α] (s : List α) :
    (argsort s).Pairwise (rankLt s) :=
  sortIdx_pairwise s (List.range s.length) (List.pairwise_lt_range s.length)

theorem argsort_isAscending {α : Type} [LinearOrder α] [Zero α] (s : List α) :
    IsAscendingArgsort s (argsort s) := by
  refine ⟨argsort_perm s, ?_⟩
  refine (argsort_pairwise s).imp ?_
  intro i j hij
  rcases hij with h | ⟨heq, _⟩
  · exact le_of_lt h
  · exact le_of_eq heq

theorem pySliceFrom_eq_drop {α : Type} (xs : List α) (i : Int) :
    pySliceFrom xs i =
      xs.drop (if i < 0 then xs.length - (-i).toNat else i.toNat) := by
  unfold pySliceFrom
  split <;> simp_all

theorem rankIndices_pairwise {α : Type} [LinearOrder α] [Zero α]
    (s : List α) (k : Int) :
    (rankIndices s k).Pairwise (fun i j => rankLt s j i) := by
  rw [rankIndices, pySliceFrom_eq_drop]
  exact List.pairwise_reverse.mpr
    ((argsort_pairwise s).sublist (List.drop_sublist _ _))

theorem rankIndices_length {α : Type} [LinearOrder α] [Zero α]
    (s : List α) (k : Int) :
    (rankIndices s k).length =
      if 0 < k then min k.toNat s.length else s.length - (-k).toNat := by
  rw [rankIndices, List.length_reverse, pySliceFrom_eq_drop, List.length_drop,
    argsort_length]
  by_cases hk : 0 < k
  · rw [if_pos hk, if_pos (by omega : -k < 0)]
    omega
  · rw [if_neg hk, if_neg (by omega : ¬(-k < 0))]

theorem mem_rankIndices {α : Type} [LinearOrder α] [Zero α] {s : List α}
    {k : Int} {x : ℕ} (hx : x ∈ rankIndices s k) : x < s.length := by
  rw [rankIndices, List.mem_reverse, pySliceFrom_eq_drop] at hx
  exact (mem_argsort s x).mp ((List.drop_sublist _ _).subset hx)

theorem getD_mem {β : Type} {l : List β} {i : ℕ} (h : i < l.length) (d : β) :
    l.getD i d ∈ l := by
  rw [List.getD_eq_getElem l d h]
  exact List.getElem_mem h

theorem retrieve_fst (e : String → List ℝ) (q : String) (docs : List String)
    (embs : List (List ℝ)) (k : Int) :
    (retrieve e q docs embs k).1 =
      (rankIndices (embs.map fun v => cosineSim (e q) v) k).map
        fun i => docs.getD i "" := rfl

theorem retrieve_snd (e : String → List ℝ) (q : String) (docs : List String)
    (embs : List (List ℝ)) (k : Int) :
    (retrieve e q docs embs k).2 =
      (rankIndices (embs.map fun v => cosineSim (e q) v) k).map
        fun i => (embs.map fun v => cosineSim (e q) v).getD i 0 := rfl

theorem normSq_single_one : normSq [(1 : ℝ)] = 1 := by
  rw [normSq_cons]
  norm_num [normSq, dot]

theorem cosineSim_single_one : cosineSim [(1 : ℝ)] [1] = 1 := by
  unfold cosineSim
  rw [if_neg (by rw [normSq_single_one]; norm_num)]
  rw [show dot [(1 : ℝ)] [1] = 1 by norm_num [dot]]
  rw [normSq_single_one, Real.sqrt_one]
  norm_num

theorem compute_confidence_one : compute_confidence [(1 : ℝ)] = 1 := by
  norm_num [compute_confidence, pyRound2, pyRoundHalfEven]

theorem retrieve_k0_eval :
    retrieve (fun _ => [(1 : ℝ)]) "q" ["a"] [[1]] 0 = (["a"], [1]) := by
  norm_num [retrieve, cosineSim_single_one, rankIndices, argsort, sortIdx,
    insertRank, pySliceFrom, List.range_succ]

/-- C1 counterexample: with a one-document corpus and k = 0, retrieve
returns that document, not the empty list the claim demands for k at most
0: the Python slice scores.argsort()[-0:] is the whole array. -/
theorem C1_counterexample :
    (retrieve (fun _ => [(1 : ℝ)]) "q" ["a"] [[1]] 0).1 = ["a"] := by
  rw [retrieve_k0_eval]

/-- C1 (amended): for k at least 1 the retrieval result has length
min(k, corpus size) (in particular all documents when k exceeds the
corpus size), and it is empty for an empty corpus; but for k = 0 it has
the full corpus length and for k negative it has corpus size minus the
magnitude of k (truncated at 0), by Python slice semantics of
scores.argsort()[-k:], so k at most 0 does not give the empty list. -/
theorem C1_amended (e : String → List ℝ) (q : String) (docs : List String)
    (embs : List (List ℝ)) (k : Int) :
    (1 ≤ k →
      (retrieve e q docs embs k).1.length = min k.toNat embs.length) ∧
    (embs = [] → (retrieve e q docs embs k).1 = []) ∧
    (k = 0 → (retrieve e q docs embs k).1.length = embs.length) ∧
    (k < 0 →
      (retrieve e q docs embs k).1.length = embs.length - (-k).toNat) := by
  have hlen : (retrieve e q docs embs k).1.length =
      if 0 < k then min k.toNat embs.length else embs.length - (-k).toNat := by
    rw [retrieve_fst, List.length_map, rankIndices_length, List.length_map]
  refine ⟨fun h1 => ?_, fun hemb => ?_, fun h0 => ?_, fun hneg => ?_⟩
  · rw [hlen, if_pos (by omega)]
  · subst hemb
    simp [retrieve_fst, rankIndices, argsort, sortIdx, pySliceFrom]
  · subst h0
    rw [hlen, if_neg (by omega)]
    simp
  · rw [hlen, if_neg (by omega)]

/-- C1 witness: the four cases of the amended contract at concrete
inputs: k = 1 on a two-document corpus, an empty corpus, k = 0 and
k = -1 on a one-document corpus. -/
theorem C1_amended_witness :
    (retrieve (fun _ => [(1 : ℝ)]) "q" ["a", "b"] [[1], [1]] 1).1.length =
      min (1 : Int).toNat ([[(1 : ℝ)], [1]] : List (List ℝ)).length ∧
    (retrieve (fun _ => [(1 : ℝ)]) "q" [] ([] : List (List ℝ)) 5).1 = [] ∧
    (retrieve (fun _ => [(1 : ℝ)]) "q" ["a"] [[1]] 0).1.length =
      ([[(1 : ℝ)]] : List (List ℝ)).length ∧
    (retrieve (fun _ => [(1 : ℝ)]) "q" ["a"] [[1]] (-1)).1.length =
      ([[(1 : ℝ)]] : List (List ℝ)).length - (-(-1 : Int)).toNat :=
  ⟨(C1_amended _ _ _ _ _).1 (by decide),
   (C1_amended _ _ _ _ _).2.1 rfl,
   (C1_amended _ _ _ _ _).2.2.1 rfl,
   (C1_amended _ _ _ _ _).2.2.2 (by decide)⟩

/-- C2: evaluation of the orchestrator at the failing input k = 0 with a
one-document corpus (app/rag_graph.py line 18): the contexts are the
whole corpus rather than empty, the confidence is 1 rather than 0, and
the answer generator is invoked, receiving the retrieved document as its
context, whose content it can echo into the answer. -/
theorem C2_rag_k0 :
    (rag (fun _ => [(1 : ℝ)]) (fun _ ctx => ctx) "q" ["a"] [[1]] 0).2.1 =
      ["a"] ∧
    (rag (fun _ => [(1 : ℝ)]) (fun _ ctx => ctx) "q" ["a"] [[1]] 0).2.2 = 1 ∧
    (rag (fun _ => [(1 : ℝ)]) (fun question ctx => question ++ " | " ++ ctx)
      "q" ["a"] [[1]] 0).1 = "q | a" := by
  refine ⟨?_, ?_, ?_⟩
  · show (retrieve (fun _ => [(1 : ℝ)]) "q" ["a"] [[1]] 0).1 = ["a"]
    rw [retrieve_k0_eval]
  · show compute_confidence
        (retrieve (fun _ => [(1 : ℝ)]) "q" ["a"] [[1]] 0).2 = 1
    rw [retrieve_k0_eval]
    exact compute_confidence_one
  · show (fun question ctx => question ++ " | " ++ ctx) "q"
        (String.intercalate "\n"
          (retrieve (fun _ => [(1 : ℝ)]) "q" ["a"] [[1]] 0).1) = "q | a"
    rw [retrieve_k0_eval]
    decide

/-- C3 counterexample: two identical corpus vectors score identically
against the query, yet the document with the larger original index comes
first in the result, refuting the smaller-index-first tie-breaking the
claim states. A two-element array is inside numpy introsort's stable
insertion-sort regime, so the model's trace here matches the real
sort. -/
theorem C3_counterexample :
    (retrieve (fun _ => [(1 : ℝ)]) "q" ["a", "b"] [[1], [1]] 2).1 =
      ["b", "a"] ∧
    (retrieve (fun _ => [(1 : ℝ)]) "q" ["a", "b"] [[1], [1]] 2).2 =
      [1, 1] := by
  have hr : rankIndices ([1, 1] : List ℝ) 2 = [1, 0] := by
    norm_num [rankIndices, argsort, sortIdx, insertRank, pySliceFrom,
      List.range_succ]
  constructor
  · rw [retrieve_fst]
    norm_num [cosineSim_single_one, hr]
  · rw [retrieve_snd]
    norm_num [cosineSim_single_one, hr]

/-- C3 (amended): the retrieval result scores are ordered by descending
similarity score (non-increasing), and this does not depend on how the
sort orders equal scores: the model's argsort meets the tie-order-free
ascending-argsort contract, and the slice-and-reverse selection of
retrieve yields non-increasing scores under EVERY index list meeting
that contract, hence under numpy's introsort whatever it does on ties.
The claimed smaller-original-index-first tie-breaking does not hold
(the counterexample returns the larger index first); the program
guarantees no particular tie order. -/
theorem C3_amended (e : String → List ℝ) (q : String) (docs : List String)
    (embs : List (List ℝ)) (k : Int) :
    List.Pairwise (fun a b => b ≤ a) (retrieve e q docs embs k).2 ∧
    IsAscendingArgsort (embs.map fun v => cosineSim (e q) v)
      (argsort (embs.map fun v => cosineSim (e q) v)) ∧
    ∀ idx : List ℕ,
      IsAscendingArgsort (embs.map fun v => cosineSim (e q) v) idx →
      List.Pairwise (fun a b => b ≤ a)
        ((pySliceFrom idx (-k)).reverse.map
          fun i => (embs.map fun v => cosineSim (e q) v).getD i 0) := by
  refine ⟨?_, argsort_isAscending _, fun idx hidx => ?_⟩
  · rw [retrieve_snd]
    refine (rankIndices_pairwise (embs.map fun v => cosineSim (e q) v) k).map
      _ ?_
    intro i j hij
    rcases hij with h | ⟨heq, _⟩
    · exact le_of_lt h
    · exact le_of_eq heq
  · have h1 : (pySliceFrom idx (-k)).Pairwise
        (fun i j => (embs.map fun v => cosineSim (e q) v).getD i 0 ≤
          (embs.map fun v => cosineSim (e q) v).getD j 0) := by
      rw [pySliceFrom_eq_drop]
      exact hidx.2.sublist (List.drop_sublist _ _)
    exact (List.pairwise_reverse.mpr h1).map _ fun a b hab => hab

/-- C3 witness: the slice-and-reverse selection applied to an index list
satisfying the ascending-argsort contract at a concrete input, here the
model's own argsort of the two equal scores. -/
theorem C3_amended_witness :
    List.Pairwise (fun a b => b ≤ a)
      ((pySliceFrom
          (argsort (([[(1 : ℝ)], [1]] : List (List ℝ)).map
            fun v => cosineSim ((fun _ : String => [(1 : ℝ)]) "q") v))
          (-(2 : Int))).reverse.map
        fun i => (([[(1 : ℝ)], [1]] : List (List ℝ)).map
          fun v => cosineSim ((fun _ : String => [(1 : ℝ)]) "q") v).getD i 0) :=
  (C3_amended (fun _ => [(1 : ℝ)]) "q" ["a", "b"] [[1], [1]] 2).2.2 _
    ((C3_amended (fun _ => [(1 : ℝ)]) "q" ["a", "b"] [[1], [1]] 2).2.1)

/-- C10: with 1 at most k at most the corpus size and the corpus index
invariant, every returned context of the orchestrator is one of the input
documents, the contexts are exactly the first component of retrieve, the
confidence is computed from the score list of retrieve, and contexts and
scores have equal length. -/
theorem C10_contexts (e : String → List ℝ) (gen : String → String → String)
    (q : String) (docs : List String) (embs : List (List ℝ)) (k : Int)
    (h1 : 1 ≤ k) (h2 : k ≤ (embs.length : Int))
    (hlen : docs.length = embs.length) :
    (∀ d ∈ (rag e gen q docs embs k).2.1, d ∈ docs) ∧
    (rag e gen q docs embs k).2.1 = (retrieve e q docs embs k).1 ∧
    (rag e gen q docs embs k).2.2 =
      compute_confidence (retrieve e q docs embs k).2 ∧
    (retrieve e q docs embs k).1.length =
      (retrieve e q docs embs k).2.length := by
  refine ⟨?_, rfl, rfl, ?_⟩
  · intro d hd
    rw [show (rag e gen q docs embs k).2.1 = (retrieve e q docs embs k).1
        from rfl, retrieve_fst] at hd
    rcases List.mem_map.mp hd with ⟨i, hi, rfl⟩
    have hilt : i < docs.length := by
      have hm := mem_rankIndices hi
      rw [List.length_map] at hm
      omega
    exact getD_mem hilt ""
  · rw [retrieve_fst, retrieve_snd, List.length_map, List.length_map]

/-- C10 witness: a concrete two-document corpus with k = 1. -/
theorem C10_contexts_witness :
    (∀ d ∈ (rag (fun _ => [(1 : ℝ)]) (fun _ _ => "ans") "q" ["a", "b"]
        [[1], [1]] 1).2.1, d ∈ ["a", "b"]) ∧
    (rag (fun _ => [(1 : ℝ)]) (fun _ _ => "ans") "q" ["a", "b"]
        [[1], [1]] 1).2.1 =
      (retrieve (fun _ => [(1 : ℝ)]) "q" ["a", "b"] [[1], [1]] 1).1 ∧
    (rag (fun _ => [(1 : ℝ)]) (fun _ _ => "ans") "q" ["a", "b"]
        [[1], [1]] 1).2.2 =
      compute_confidence
        (retrieve (fun _ => [(1 : ℝ)]) "q" ["a", "b"] [[1], [1]] 1).2 ∧
    (retrieve (fun _ => [(1 : ℝ)]) "q" ["a", "b"] [[1], [1]] 1).1.length =
      (retrieve (fun _ => [(1 : ℝ)]) "q" ["a", "b"] [[1], [1]] 1).2.length :=
  C10_contexts (fun _ => [(1 : ℝ)]) (fun _ _ => "ans") "q" ["a", "b"]
    [[1], [1]] 1 (by decide) (by decide) (by decide)
